import Mathlib

/-!
Shallow embedding of the core of a demand-paged virtual-memory simulator:
page tables and the free-frame list (types.h, memory.c), the MMU's
resolve function and receive loop (mmu.c), the master's inline
initialisation (master.c) and the scheduler's completion loop (sched.c).
C ints are modelled as unbounded Int (no arithmetic in the modelled code
approaches 2^31); a read or write outside an array's bounds is undefined
behaviour in the C and is modelled as a default read / no-op write.
-/

namespace VMSim

/-- Entry of a page table (types.h, struct pte_t). -/
structure pte_t where
  frame_no : Int
  valid : Int
  last_used : Int
deriving Repr, DecidableEq

/-- Free-frame-list header plus ring buffer (types.h, struct
free_frame_list_t).  The flexible array member frames has physical length
total_frames in every state the simulator builds. -/
structure free_frame_list_t where
  total_frames : Int
  count : Int
  head : Int
  tail : Int
  frames : List Int
deriving Repr, DecidableEq

/-- Result code MMU_PAGE_FAULT (types.h). -/
def MMU_PAGE_FAULT : Int := -1

/-- Result code MMU_INVALID_PAGE (types.h). -/
def MMU_INVALID_PAGE : Int := -2

/-- Sentinel page value MMU_END_OF_REF (types.h). -/
def MMU_END_OF_REF : Int := -9

/-- Read element i of a C array modelled as a list; an out-of-bounds read is
undefined behaviour in the C and yields the supplied default here. -/
def getIdx {α : Type} (d : α) (l : List α) (i : Int) : α :=
  if h : 0 ≤ i ∧ i.toNat < l.length then l.get ⟨i.toNat, h.2⟩ else d

/-- Write element i of a C array modelled as a list; an out-of-bounds write is
undefined behaviour in the C and is modelled as a no-op. -/
def setIdx {α : Type} (l : List α) (i : Int) (a : α) : List α :=
  if 0 ≤ i then l.set i.toNat a else l

/-- Offset, in entries from the base of SM1, of the entry computed by
pte_addr (types.h:72-74): process p_ind's table starts at pid*m and page
page_no sits page_no entries further. -/
def pte_index (pid m page_no : Int) : Int := pid * m + page_no

/-- Whether an SM1 offset lies inside the m-entry page table of process
pid, i.e. in [pid*m, pid*m + m). -/
def in_process_table (pid m idx : Int) : Prop :=
  pid * m ≤ idx ∧ idx < pid * m + m

instance (pid m idx : Int) : Decidable (in_process_table pid m idx) := by
  unfold in_process_table; infer_instance

/-- Dereference of pte_addr(sm1_base, pid, m, page_no). -/
def pte_read (sm1 : List pte_t) (pid m page_no : Int) : pte_t :=
  getIdx ⟨-1, 0, 0⟩ sm1 (pte_index pid m page_no)

/-- pt_init_all (memory.c:11-24): k*m entries, each set to frame -1,
invalid, timestamp 0; none models the C status -1 on a bad argument (the
null-base check has no counterpart here). -/
def pt_init_all (k m : Int) : Option (List pte_t) :=
  if k ≤ 0 ∨ m ≤ 0 then none
  else some (List.replicate (k * m).toNat ⟨-1, 0, 0⟩)

/-- pt_set_mapping (memory.c:26-35): C status code paired with the updated
SM1 (unchanged when the status is -1). -/
def pt_set_mapping (sm1 : List pte_t) (pid m page_no frame_no ts : Int) :
    Int × List pte_t :=
  if pid < 0 ∨ m ≤ 0 ∨ page_no < 0 ∨ m ≤ page_no ∨ frame_no < 0 then (-1, sm1)
  else (0, setIdx sm1 (pte_index pid m page_no) ⟨frame_no, 1, ts⟩)

/-- pt_invalidate (memory.c:37-46): clears frame_no and valid, keeps
last_used as-is. -/
def pt_invalidate (sm1 : List pte_t) (pid m page_no : Int) :
    Int × List pte_t :=
  if pid < 0 ∨ m ≤ 0 ∨ page_no < 0 ∨ m ≤ page_no then (-1, sm1)
  else
    (0, setIdx sm1 (pte_index pid m page_no)
          ⟨-1, 0, (pte_read sm1 pid m page_no).last_used⟩)

/-- pt_touch (memory.c:48-54): updates last_used only while valid. -/
def pt_touch (sm1 : List pte_t) (pid m page_no ts : Int) :
    Int × List pte_t :=
  if pid < 0 ∨ m ≤ 0 ∨ page_no < 0 ∨ m ≤ page_no then (-1, sm1)
  else
    let pte := pte_read sm1 pid m page_no
    if pte.valid = 0 then (-1, sm1)
    else (0, setIdx sm1 (pte_index pid m page_no) { pte with last_used := ts })

/-- is_legal_page (memory.c:56-58). -/
def is_legal_page (page_no m_req_for_pid : Int) : Bool :=
  decide (0 ≤ page_no) && decide (page_no < m_req_for_pid)

/-- ffl_init (memory.c:62-75): pool starts full, frames prefilled with
0..f-1, head 0, tail f % f (that is 0); none models the C status -1 when
f <= 0. -/
def ffl_init (f : Int) : Option free_frame_list_t :=
  if f ≤ 0 then none
  else some { total_frames := f, count := f, head := 0, tail := f % f,
              frames := (List.range f.toNat).map (fun i => (i : Int)) }

/-- ffl_alloc (memory.c:77-83): the sole failure check in the C is
count > total_frames — there is no empty-pool check — otherwise it pops
frames[head], advances head mod total_frames and decrements count. -/
def ffl_alloc (ffl : free_frame_list_t) : Int × free_frame_list_t :=
  if ffl.total_frames < ffl.count then (-1, ffl)
  else (getIdx 0 ffl.frames ffl.head,
        { ffl with head := (ffl.head + 1) % ffl.total_frames,
                   count := ffl.count - 1 })

/-- ffl_free (memory.c:85-92): rejects a frame outside [0, total_frames)
and rejects a release when count >= total_frames. -/
def ffl_free (ffl : free_frame_list_t) (frame_idx : Int) :
    Int × free_frame_list_t :=
  if frame_idx < 0 ∨ ffl.total_frames ≤ frame_idx then (-1, ffl)
  else if ffl.total_frames ≤ ffl.count then (-1, ffl)
  else (0, { ffl with frames := setIdx ffl.frames ffl.tail frame_idx,
                      tail := (ffl.tail + 1) % ffl.total_frames,
                      count := ffl.count + 1 })

/-- Accumulator of the scan loop in choose_lru_victim_local
(memory.c:97-106): lruScanF e n is the pair (victim, oldest_ts) after the
loop body has run for p = 0 .. n-1, where e p models pt[p]. -/
def lruScanF (e : Nat → pte_t) : Nat → Int × Int
  | 0 => (-1, 0)
  | n + 1 =>
    let acc := lruScanF e n
    if (e n).valid ≠ 0 then
      if acc.1 = -1 ∨ (e n).last_used < acc.2 then ((n : Int), (e n).last_used)
      else acc
    else acc

/-- choose_lru_victim_local (memory.c:94-108). -/
def choose_lru_victim_local (sm1 : List pte_t) (pid m : Int) : Int :=
  if pid < 0 ∨ m ≤ 0 then -1
  else (lruScanF (fun p => pte_read sm1 pid m (p : Int)) m.toNat).1

/-- The free-frame-list state written inline by master_run
(master.c:111-118) at simulation start: count is set to 0, head 0,
tail n_frms % n_frms, frames prefilled with 0..f-1. -/
def master_ffl_init (f : Int) : free_frame_list_t :=
  { total_frames := f, count := 0, head := 0, tail := f % f,
    frames := (List.range f.toNat).map (fun i => (i : Int)) }

/-- State owned by the MMU: SM1 page tables, SM2 free-frame list, and the
global LRU timestamp g_ts (mmu.c:30). -/
structure MMUState where
  sm1 : List pte_t
  ffl : free_frame_list_t
  g_ts : Int
deriving Repr, DecidableEq

/-- resolve_access (mmu.c:60-111): result code, pfh_out, and the state
after the call. -/
def resolve_access (st : MMUState) (p_ind page_no m m_req_for_pid : Int) :
    Int × Int × MMUState :=
  if ¬ is_legal_page page_no m_req_for_pid then
    (MMU_INVALID_PAGE, 0, st)
  else
    let pte := pte_read st.sm1 p_ind m page_no
    if 0 < pte.valid then
      let ts := st.g_ts + 1
      (pte.frame_no, 0,
        { st with
            sm1 := setIdx st.sm1 (pte_index p_ind m page_no)
                     { pte with last_used := ts },
            g_ts := ts })
    else
      let ar := ffl_alloc st.ffl
      if 0 ≤ ar.1 then
        let ts := st.g_ts + 1
        (ar.1, 1,
          { sm1 := (pt_set_mapping st.sm1 p_ind m page_no ar.1 ts).2,
            ffl := ar.2, g_ts := ts })
      else
        let victim_page := choose_lru_victim_local st.sm1 p_ind m
        if victim_page < 0 then
          (MMU_PAGE_FAULT, 0, { st with ffl := ar.2 })
        else
          let victim_frame := (pte_read st.sm1 p_ind m victim_page).frame_no
          let sm1a := (pt_invalidate st.sm1 p_ind m victim_page).2
          let ts := st.g_ts + 1
          (victim_frame, 1,
            { sm1 := (pt_set_mapping sm1a p_ind m page_no victim_frame ts).2,
              ffl := ar.2, g_ts := ts })

/-- Messages the MMU emits: a reply to a process on MQ3 (send_proc_reply,
mmu.c:41-48) or a notification to the scheduler on MQ2 (notify_scheduler,
mmu.c:50-58), each carrying (pid, payload). -/
inductive OutMsg where
  | reply : Int → Int → OutMsg
  | notify : Int → Int → OutMsg
deriving Repr, DecidableEq

/-- Whether a message is a process reply. -/
def isReply : OutMsg → Bool
  | .reply _ _ => true
  | .notify _ _ => false

/-- Whether a message is a scheduler notification. -/
def isNotify : OutMsg → Bool
  | .reply _ _ => false
  | .notify _ _ => true

/-- An access request as read from MQ3 (mmu.c:179-181): ints[0], ints[1],
ints[2]. -/
structure AccessReq where
  p_ind : Int
  page_no : Int
  m_req : Int
deriving Repr, DecidableEq

/-- Handling of one received request by the mmu_run loop body
(mmu.c:183-206): the new MMU state and the messages sent, in order. -/
def mmu_handle_request (st : MMUState) (m : Int) (req : AccessReq) :
    MMUState × List OutMsg :=
  if req.page_no = MMU_END_OF_REF then
    (st, [OutMsg.reply req.p_ind MMU_END_OF_REF, OutMsg.notify req.p_ind 0])
  else
    let r := resolve_access st req.p_ind req.page_no m req.m_req
    (r.2.2,
      OutMsg.reply req.p_ind r.1 ::
        (if r.2.1 ≠ 0 then [OutMsg.notify req.p_ind 1] else []))

/-- Number of end-of-stream sentinel requests in a request list. -/
def countSentinels (msgs : List AccessReq) : Nat :=
  msgs.countP (fun r => decide (r.page_no = MMU_END_OF_REF))

/-- Number of distinct processes that sent a sentinel in a request list. -/
def distinctSentinelSenders (msgs : List AccessReq) : Nat :=
  ((msgs.filter (fun r => decide (r.page_no = MMU_END_OF_REF))).map
    AccessReq.p_ind).dedup.length

/-- The mmu_run receive loop (mmu.c:163-207) driven by a list of incoming
requests.  procs_cmpltd (mmu.c:119) is incremented on every sentinel and
the loop breaks once it reaches k; the result is some (final state,
procs_cmpltd) when the loop breaks, and none when the request list is
exhausted with the loop still blocked on msgrcv. -/
def mmu_loop (k m : Int) :
    MMUState → Int → List AccessReq → Option (MMUState × Int)
  | _, _, [] => none
  | st, cnt, req :: rest =>
    if req.page_no = MMU_END_OF_REF then
      if k ≤ cnt + 1 then some (st, cnt + 1)
      else mmu_loop k m st (cnt + 1) rest
    else
      mmu_loop k m (resolve_access st req.p_ind req.page_no m req.m_req).2.2
        cnt rest

/-- The scheduler's inner notification loop (sched.c:73-104) for one
Running process, driven by the list of (from_pid, pfh) notification pairs
read from MQ2: some rest when the Running to Finished transition fires
(the loop breaks with finished_count incremented), none when the
notification list is exhausted with the loop still blocked.  The running
process's pid is in scope but — exactly as in the C — never compared
against from_pid. -/
def sched_wait_finish (running_pid : Int) :
    List (Int × Int) → Option (List (Int × Int))
  | [] => none
  | note :: rest =>
    if note.2 = 0 then some rest
    else sched_wait_finish running_pid rest

/-! Concrete states used to settle the claims. -/

/-- Initial MMU state of a k=1, m=2, f=1 configuration: SM1 exactly as
pt_init_all 1 2 builds it and SM2 exactly as ffl_init 1 builds it, with
g_ts = 0 (mmu.c:30). -/
def st112 : MMUState := ⟨[⟨-1, 0, 0⟩, ⟨-1, 0, 0⟩], ⟨1, 1, 0, 0, [0]⟩, 0⟩

/-- The full one-frame pool as built by ffl_init 1. -/
def ffl1 : free_frame_list_t := ⟨1, 1, 0, 0, [0]⟩

/-- C1: fails on the code.  From the properly initialised k=1, m=2, f=1
state, resolving page 0 and then page 1 of process 0 drives the free
pool's count to -1, outside [0, 1], and leaves frame 0 owned by two
valid page-table entries at once, so 2 > f pages are resident:
ffl_alloc (memory.c:77-83) has no empty-pool check, so the second fault
hands frame 0 out a second time instead of failing over to eviction. -/
theorem frame_pool_invariant_violated :
    pt_init_all 1 2 = some st112.sm1 ∧ ffl_init 1 = some st112.ffl ∧
    (let st2 := (resolve_access (resolve_access st112 0 0 2 2).2.2 0 1 2 2).2.2
     st2.ffl.count = -1 ∧
     (pte_read st2.sm1 0 2 0).valid = 1 ∧
     (pte_read st2.sm1 0 2 0).frame_no = 0 ∧
     (pte_read st2.sm1 0 2 1).valid = 1 ∧
     (pte_read st2.sm1 0 2 1).frame_no = 0) := by
  decide

/-- C2: fails on the code.  ffl1 is the full one-frame pool built by
ffl_init 1; the first allocation returns frame 0 and leaves count = 0, yet
the second allocation does not fail: it returns the already-outstanding
frame 0 again and decrements count to -1, so on an empty pool ffl_alloc
neither signals no-free-frame nor is free of side effects
(memory.c:78 checks count > total_frames instead of count == 0,
contradicting the contract at memory.h:49). -/
theorem ffl_alloc_empty_pool_bug :
    ffl_init 1 = some ffl1 ∧
    (ffl_alloc ffl1).1 = 0 ∧ (ffl_alloc ffl1).2.count = 0 ∧
    (ffl_alloc (ffl_alloc ffl1).2).1 = 0 ∧
    (ffl_alloc (ffl_alloc ffl1).2).2.count = -1 := by
  decide

/-- C3: fails on the code.  At simulation start master_run initialises the
pool inline (master.c:111-118) with count = 0, not f: for f = 1 the pool
the engine first sees has count 0, while the repo's own initialiser
ffl_init (memory.c:62-75, documented at memory.h:43-46 to set count = f)
— which master_run never calls — yields count = 1. -/
theorem master_pool_init_bug :
    (master_ffl_init 1).count = 0 ∧ (master_ffl_init 1).frames = [0] ∧
    (master_ffl_init 1).count ≠ 1 ∧
    ffl_init 1 = some ⟨1, 1, 0, 0, [0]⟩ := by
  decide

/-- C4: fails on the code.  For k=1, m=2, f=1, legal bound 2 and reference
sequence [0, 1, 0] from the freshly initialised state: access 1 faults
page 0 into frame 0 (handled) as the claim expects, but access 2 does not
evict page 0 — ffl_alloc hands frame 0 out again, its empty-pool check
being missing, leaving both pages valid on frame 0 — and access 3 is then
a hit (pfh = 0), not a handled fault evicting page 1; the final resident
set is {page 0 -> frame 0, page 1 -> frame 0}, not {page 0 -> frame 0}. -/
theorem scenario_k1m2f1_bug :
    (let r1 := resolve_access st112 0 0 2 2
     let r2 := resolve_access r1.2.2 0 1 2 2
     let r3 := resolve_access r2.2.2 0 0 2 2
     (r1.1 = 0 ∧ r1.2.1 = 1) ∧
     (r2.1 = 0 ∧ r2.2.1 = 1 ∧ (pte_read r2.2.2.sm1 0 2 0).valid = 1) ∧
     (r3.1 = 0 ∧ r3.2.1 = 0) ∧
     (pte_read r3.2.2.sm1 0 2 1).valid = 1 ∧
     (pte_read r3.2.2.sm1 0 2 0).valid = 1) := by
  decide

/-- C7: counterexample to the claim as stated.  With process 5 Running, a
notification from process 7 carrying fault-handled = 0 fires the Running
to Finished transition: the loop at sched.c:73-104 never compares the
notification's process identifier with the running process. -/
theorem sched_finish_wrong_pid_cex :
    sched_wait_finish 5 [(7, 0)] = some [] ∧ (7 : Int) ≠ 5 := by
  decide

/-- C7 (amended): the scheduler fires the Running to Finished transition on
the first notification whose fault-handled flag is 0, whatever process
identifier the notification carries, and a notification with a nonzero
flag never fires the transition. -/
theorem sched_finish_on_first_unhandled (running_pid from_pid pfh : Int)
    (rest : List (Int × Int)) (h : pfh ≠ 0) :
    sched_wait_finish running_pid ((from_pid, 0) :: rest) = some rest ∧
    sched_wait_finish running_pid ((from_pid, pfh) :: rest) =
      sched_wait_finish running_pid rest := by
  constructor
  · simp [sched_wait_finish]
  · simp [sched_wait_finish, h]

/-- Witness: the amended C7 theorem applied to running pid 5, a
notification from pid 7, flag 1, and the empty remainder. -/
theorem sched_finish_on_first_unhandled_witness :
    (1 : Int) ≠ 0 ∧
    (sched_wait_finish 5 [((7 : Int), (0 : Int))] = some [] ∧
      sched_wait_finish 5 [((7 : Int), (1 : Int))] = sched_wait_finish 5 []) :=
  ⟨by decide, sched_finish_on_first_unhandled 5 7 1 [] (by decide)⟩

/-- C8: confirmed.  A request whose page number fails the legality check —
page_no < 0 or page_no at or beyond the per-request bound — makes
resolve_access return MMU_INVALID_PAGE with pfh = 0 and the whole MMU
state (page tables, free-frame pool, g_ts clock) unchanged
(mmu.c:63-68). -/
theorem resolve_illegal_no_mutation (st : MMUState)
    (p_ind page_no m m_req : Int) (h : page_no < 0 ∨ m_req ≤ page_no) :
    resolve_access st p_ind page_no m m_req = (MMU_INVALID_PAGE, 0, st) := by
  have hl : ¬ is_legal_page page_no m_req = true := by
    simp only [is_legal_page, Bool.and_eq_true, decide_eq_true_eq, not_and]
    omega
  unfold resolve_access
  rw [if_pos hl]

/-- Witness: C8 applied to the k=1, m=2, f=1 initial state and the illegal
page 2 with bound 2. -/
theorem resolve_illegal_no_mutation_witness :
    ((2 : Int) < 0 ∨ (2 : Int) ≤ 2) ∧
    resolve_access st112 0 2 2 2 = (MMU_INVALID_PAGE, 0, st112) :=
  ⟨by decide, resolve_illegal_no_mutation st112 0 2 2 2 (by decide)⟩

/-- C10: counterexample to the claim as stated.  Page 3 passes the
legality check against the per-request bound 5, but with m = 2 pages per
table the engine's lookup dereferences SM1 offset pte_index 0 2 3 = 3,
outside process 0's table [0, 2): a legal request whose bound exceeds m
does not keep the page-table lookup inside that process's m-entry
table. -/
theorem legal_page_out_of_table_cex :
    is_legal_page 3 5 = true ∧
    ¬ in_process_table 0 2 (pte_index 0 2 3) := by
  decide

/-- C10 (amended): the engine's page-table lookup for (pid, page_no) lies
inside process pid's m-entry table exactly when 0 <= page_no < m; since
the legality bound is supplied per request (process.c:99 passes ref_len,
not a value bounded by m), a legality-passing request is guaranteed an
in-bounds lookup only when that bound is at most m. -/
theorem legal_within_table_iff (pid m page_no m_req : Int)
    (hle : m_req ≤ m) (hlegal : is_legal_page page_no m_req = true) :
    in_process_table pid m (pte_index pid m page_no) ∧
    (in_process_table pid m (pte_index pid m page_no) ↔
      0 ≤ page_no ∧ page_no < m) := by
  have h : 0 ≤ page_no ∧ page_no < m_req := by
    simpa [is_legal_page] using hlegal
  unfold in_process_table pte_index
  constructor
  · constructor
    · linarith [h.1]
    · linarith [h.2]
  · constructor
    · intro hin
      constructor
      · linarith [hin.1]
      · linarith [hin.2]
    · intro hb
      constructor
      · linarith [hb.1]
      · linarith [hb.2]

/-- Witness: the amended C10 theorem applied to pid 1, m = 2, page 1,
bound 2. -/
theorem legal_within_table_iff_witness :
    ((2 : Int) ≤ 2 ∧ is_legal_page 1 2 = true) ∧
    (in_process_table 1 2 (pte_index 1 2 1) ∧
      (in_process_table 1 2 (pte_index 1 2 1) ↔
        (0 : Int) ≤ 1 ∧ (1 : Int) < 2)) :=
  ⟨⟨by decide, by decide⟩, legal_within_table_iff 1 2 1 2 (by decide) (by decide)⟩

/-- Characterisation of the scan loop of choose_lru_victim_local: after
scanning the positions below n the accumulator is (-1, 0) when no position
below n is valid, and otherwise holds the first position attaining the
minimal last_used among the valid positions below n, paired with that
last_used. -/
theorem lruScanF_spec (e : Nat → pte_t) (n : Nat) :
    (lruScanF e n = (-1, 0) ∧ ∀ p, p < n → (e p).valid = 0) ∨
    (∃ v : Nat, v < n ∧ lruScanF e n = ((v : Int), (e v).last_used) ∧
      (e v).valid ≠ 0 ∧
      (∀ p, p < n → (e p).valid ≠ 0 → (e v).last_used ≤ (e p).last_used) ∧
      (∀ p, p < v → (e p).valid ≠ 0 → (e v).last_used < (e p).last_used)) := by
  induction n with
  | zero =>
    exact Or.inl ⟨rfl, fun p hp => absurd hp (Nat.not_lt_zero p)⟩
  | succ n ih =>
    rcases ih with ⟨hacc, hinv⟩ | ⟨v, hvn, hacc, hvval, hmin, hfirst⟩
    · by_cases hv : (e n).valid = 0
      · refine Or.inl ⟨?_, ?_⟩
        · simp [lruScanF, hacc, hv]
        · intro p hp
          rcases Nat.lt_succ_iff_lt_or_eq.mp hp with h | h
          · exact hinv p h
          · subst h; exact hv
      · refine Or.inr ⟨n, Nat.lt_succ_self n, ?_, hv, ?_, ?_⟩
        · simp [lruScanF, hacc, hv]
        · intro p hp hpv
          rcases Nat.lt_succ_iff_lt_or_eq.mp hp with h | h
          · exact absurd (hinv p h) hpv
          · subst h; exact le_refl _
        · intro p hp hpv
          exact absurd (hinv p hp) hpv
    · have hvne : ((v : Int), (e v).last_used).1 ≠ -1 := by
        simp only []
        omega
      by_cases hv : (e n).valid = 0
      · refine Or.inr ⟨v, Nat.lt_succ_of_lt hvn, ?_, hvval, ?_, hfirst⟩
        · simp [lruScanF, hacc, hv]
        · intro p hp hpv
          rcases Nat.lt_succ_iff_lt_or_eq.mp hp with h | h
          · exact hmin p h hpv
          · subst h; exact absurd hv (by simpa using hpv)
      · by_cases hlt : (e n).last_used < (e v).last_used
        · refine Or.inr ⟨n, Nat.lt_succ_self n, ?_, hv, ?_, ?_⟩
          · have : lruScanF e (n + 1) =
                if (e n).valid ≠ 0 then
                  if (lruScanF e n).1 = -1 ∨ (e n).last_used < (lruScanF e n).2
                  then ((n : Int), (e n).last_used) else lruScanF e n
                else lruScanF e n := rfl
            rw [this, hacc]
            simp only [hv, hlt, or_true, if_true, ne_eq, not_false_iff]
          · intro p hp hpv
            rcases Nat.lt_succ_iff_lt_or_eq.mp hp with h | h
            · exact le_trans (le_of_lt hlt) (hmin p h hpv)
            · subst h; exact le_refl _
          · intro p hp hpv
            exact lt_of_lt_of_le hlt (hmin p hp hpv)
        · refine Or.inr ⟨v, Nat.lt_succ_of_lt hvn, ?_, hvval, ?_, hfirst⟩
          · have : lruScanF e (n + 1) =
                if (e n).valid ≠ 0 then
                  if (lruScanF e n).1 = -1 ∨ (e n).last_used < (lruScanF e n).2
                  then ((n : Int), (e n).last_used) else lruScanF e n
                else lruScanF e n := rfl
            rw [this, hacc]
            have hcond : ¬ (((v : Int), (e v).last_used).1 = -1 ∨
                (e n).last_used < ((v : Int), (e v).last_used).2) := by
              push_neg
              exact ⟨hvne, by simpa using not_lt.mp hlt⟩
            simp only [hv, ne_eq, not_false_iff, if_true, hcond, if_false]
          · intro p hp hpv
            rcases Nat.lt_succ_iff_lt_or_eq.mp hp with h | h
            · exact hmin p h hpv
            · subst h; exact not_lt.mp hlt

/-- C5: confirmed.  With a non-negative process index and m > 0, victim
selection scans exactly the m entries of that process's table: it returns
-1 (none) iff no entry is valid, and any returned page v is a valid entry
below m whose last_used is minimal among the valid entries, every valid
page before v carrying a strictly larger last_used — the first minimum of
the single forward scan of memory.c:94-108, so ties break to the lowest
page number. -/
theorem choose_lru_victim_spec (sm1 : List pte_t) (pid m : Int)
    (hpid : 0 ≤ pid) (hm : 0 < m) :
    (choose_lru_victim_local sm1 pid m = -1 ↔
      ∀ p : Nat, (p : Int) < m → (pte_read sm1 pid m (p : Int)).valid = 0) ∧
    (∀ v : Nat, choose_lru_victim_local sm1 pid m = (v : Int) →
      (v : Int) < m ∧ (pte_read sm1 pid m (v : Int)).valid ≠ 0 ∧
      (∀ p : Nat, (p : Int) < m → (pte_read sm1 pid m (p : Int)).valid ≠ 0 →
        (pte_read sm1 pid m (v : Int)).last_used ≤
          (pte_read sm1 pid m (p : Int)).last_used) ∧
      (∀ p : Nat, p < v → (pte_read sm1 pid m (p : Int)).valid ≠ 0 →
        (pte_read sm1 pid m (v : Int)).last_used <
          (pte_read sm1 pid m (p : Int)).last_used)) := by
  have hcond : ¬ (pid < 0 ∨ m ≤ 0) := by omega
  have hch : choose_lru_victim_local sm1 pid m =
      (lruScanF (fun p : Nat => pte_read sm1 pid m (p : Int)) m.toNat).1 := by
    unfold choose_lru_victim_local
    rw [if_neg hcond]
  have hmn : ∀ p : Nat, p < m.toNat ↔ (p : Int) < m := by
    intro p; omega
  rcases lruScanF_spec (fun p : Nat => pte_read sm1 pid m (p : Int)) m.toNat
    with ⟨hacc, hinv⟩ | ⟨v, hvn, hacc, hvval, hmin, hfirst⟩
  · constructor
    · rw [hch, hacc]
      constructor
      · intro _ p hp
        exact hinv p ((hmn p).mpr hp)
      · intro _; rfl
    · intro v hv
      rw [hch, hacc] at hv
      exact absurd hv (by simp only []; omega)
  · have hr : choose_lru_victim_local sm1 pid m = (v : Int) := by
      rw [hch, hacc]
    constructor
    · rw [hr]
      constructor
      · intro h
        exact absurd h (by omega)
      · intro hall
        exact absurd (hall v ((hmn v).mp hvn)) (by simpa using hvval)
    · intro v' hv'
      rw [hr] at hv'
      have hvv : v' = v := by omega
      subst hvv
      refine ⟨(hmn v').mp hvn, hvval, ?_, ?_⟩
      · intro p hp hpv
        exact hmin p ((hmn p).mpr hp) hpv
      · intro p hp hpv
        exact hfirst p hp hpv

/-- Table of m = 6 entries for one process with page 3 valid at timestamp
2 (frame 7) and page 5 valid at timestamp 1 (frame 8); all other pages
invalid. -/
def lruTbl : List pte_t :=
  [⟨-1, 0, 0⟩, ⟨-1, 0, 0⟩, ⟨-1, 0, 0⟩, ⟨7, 1, 2⟩, ⟨-1, 0, 0⟩, ⟨8, 1, 1⟩]

/-- Witness: C5 applied to lruTbl with pid 0 and m = 6; on this table —
the claim's example {page 3: ts 2, page 5: ts 1} — selection returns
page 5. -/
theorem choose_lru_victim_spec_witness :
    ((0 : Int) ≤ 0 ∧ (0 : Int) < 6 ∧
      choose_lru_victim_local lruTbl 0 6 = 5) ∧
    ((choose_lru_victim_local lruTbl 0 6 = -1 ↔
      ∀ p : Nat, (p : Int) < 6 → (pte_read lruTbl 0 6 (p : Int)).valid = 0) ∧
    (∀ v : Nat, choose_lru_victim_local lruTbl 0 6 = (v : Int) →
      (v : Int) < 6 ∧ (pte_read lruTbl 0 6 (v : Int)).valid ≠ 0 ∧
      (∀ p : Nat, (p : Int) < 6 → (pte_read lruTbl 0 6 (p : Int)).valid ≠ 0 →
        (pte_read lruTbl 0 6 (v : Int)).last_used ≤
          (pte_read lruTbl 0 6 (p : Int)).last_used) ∧
      (∀ p : Nat, p < v → (pte_read lruTbl 0 6 (p : Int)).valid ≠ 0 →
        (pte_read lruTbl 0 6 (v : Int)).last_used <
          (pte_read lruTbl 0 6 (p : Int)).last_used))) :=
  ⟨⟨by decide, by decide, by decide⟩,
    choose_lru_victim_spec lruTbl 0 6 (by decide) (by decide)⟩

/-- C6: counterexample to the claim as stated.  With k = 2 configured, two
end-of-stream sentinels from the same process 0 terminate the engine's
receive loop even though only one distinct process has sent the sentinel:
mmu_run increments procs_cmpltd on every sentinel message (mmu.c:191)
without tracking senders, so a repeated sentinel causes early
termination. -/
theorem mmu_loop_duplicate_sentinel_cex :
    (mmu_loop 2 2 st112 0
      [⟨0, MMU_END_OF_REF, -1⟩, ⟨0, MMU_END_OF_REF, -1⟩]).isSome = true ∧
    distinctSentinelSenders
      [⟨0, MMU_END_OF_REF, -1⟩, ⟨0, MMU_END_OF_REF, -1⟩] = 1 ∧
    ¬ (2 : Nat) ≤ 1 := by
  decide

/-- Termination of the receive loop, generalised over the running
procs_cmpltd counter: the loop breaks iff the request stream contains at
least one sentinel and enough sentinels to lift the counter to k. -/
theorem mmu_loop_isSome (k m : Int) (msgs : List AccessReq) :
    ∀ (st : MMUState) (cnt : Int),
      (mmu_loop k m st cnt msgs).isSome = true ↔
        (k ≤ cnt + (countSentinels msgs : Int) ∧ 1 ≤ countSentinels msgs) := by
  induction msgs with
  | nil =>
    intro st cnt
    simp [mmu_loop, countSentinels]
  | cons req rest ih =>
    intro st cnt
    by_cases hs : req.page_no = MMU_END_OF_REF
    · have hcount : countSentinels (req :: rest) = countSentinels rest + 1 := by
        simp [countSentinels, List.countP_cons, hs]
      by_cases hk : k ≤ cnt + 1
      · simp only [mmu_loop, if_pos hs, if_pos hk, Option.isSome_some, hcount]
        constructor
        · intro _
          constructor
          · omega
          · omega
        · intro _; trivial
      · simp only [mmu_loop, if_pos hs, if_neg hk, hcount]
        rw [ih st (cnt + 1)]
        omega
    · have hcount : countSentinels (req :: rest) = countSentinels rest := by
        simp [countSentinels, List.countP_cons, hs]
      simp only [mmu_loop, if_neg hs, hcount]
      rw [ih ((resolve_access st req.p_ind req.page_no m req.m_req).2.2) cnt]

/-- C6 (amended): for k >= 1 the engine's receive loop terminates exactly
when the total number of end-of-stream sentinel messages received reaches
the configured process count k — counting every sentinel message,
repeats from the same process included; sender distinctness plays no
role. -/
theorem mmu_loop_terminates_iff (k m : Int) (st : MMUState)
    (msgs : List AccessReq) (hk : 1 ≤ k) :
    (mmu_loop k m st 0 msgs).isSome = true ↔
      k ≤ (countSentinels msgs : Int) := by
  rw [mmu_loop_isSome k m msgs st 0]
  omega

/-- Witness: the amended C6 theorem applied to k = 1, m = 2, the initial
k=1, m=2, f=1 state and a single-sentinel stream. -/
theorem mmu_loop_terminates_iff_witness :
    (1 : Int) ≤ 1 ∧
    ((mmu_loop 1 2 st112 0 [⟨0, MMU_END_OF_REF, -1⟩]).isSome = true ↔
      (1 : Int) ≤ (countSentinels [⟨0, MMU_END_OF_REF, -1⟩] : Int)) :=
  ⟨by decide, mmu_loop_terminates_iff 1 2 st112 [⟨0, MMU_END_OF_REF, -1⟩]
    (by decide)⟩

/-- The condition under which resolve_access reports the fault handled
(pfh_out = 1): a legal, non-resident page for which either the pool
allocation succeeds or a local LRU victim exists. -/
def fault_handled_cond (st : MMUState) (p_ind page_no m m_req : Int) : Prop :=
  is_legal_page page_no m_req = true ∧
  (pte_read st.sm1 p_ind m page_no).valid ≤ 0 ∧
  (0 ≤ (ffl_alloc st.ffl).1 ∨ 0 ≤ choose_lru_victim_local st.sm1 p_ind m)

instance (st : MMUState) (p_ind page_no m m_req : Int) :
    Decidable (fault_handled_cond st p_ind page_no m m_req) := by
  unfold fault_handled_cond
  infer_instance

/-- The pfh_out flag of resolve_access is 1 exactly under
fault_handled_cond and 0 otherwise. -/
theorem resolve_pfh_eq (st : MMUState) (p_ind page_no m m_req : Int) :
    (resolve_access st p_ind page_no m m_req).2.1 =
      if fault_handled_cond st p_ind page_no m m_req then 1 else 0 := by
  by_cases h1 : is_legal_page page_no m_req = true
  · by_cases h2 : 0 < (pte_read st.sm1 p_ind m page_no).valid
    · have hc : ¬ fault_handled_cond st p_ind page_no m m_req := by
        unfold fault_handled_cond
        push_neg
        intro _ hv
        omega
      simp only [resolve_access, h1, not_true_eq_false, if_false, h2, if_true]
      rw [if_neg hc]
    · by_cases h3 : 0 ≤ (ffl_alloc st.ffl).1
      · have hc : fault_handled_cond st p_ind page_no m m_req :=
          ⟨h1, by omega, Or.inl h3⟩
        simp [resolve_access, h1, h2, h3, hc]
      · by_cases h4 : choose_lru_victim_local st.sm1 p_ind m < 0
        · have hc : ¬ fault_handled_cond st p_ind page_no m m_req := by
            unfold fault_handled_cond
            push_neg
            intro _ _
            constructor
            · omega
            · omega
          simp [resolve_access, h1, h2, h3, h4, hc]
        · have hc : fault_handled_cond st p_ind page_no m m_req :=
            ⟨h1, by omega, Or.inr (by omega)⟩
          simp [resolve_access, h1, h2, h3, h4, hc]
  · have hc : ¬ fault_handled_cond st p_ind page_no m m_req := by
      unfold fault_handled_cond
      push_neg
      intro h
      exact absurd h h1
    simp [resolve_access, h1, hc]

/-- C9: confirmed.  For every non-sentinel request the engine's loop body
sends exactly one reply to the workload, and sends a scheduler
notification exactly when resolve_access reported the fault handled —
that is, in the Fault-Allocated and Fault-Evicted branches; in the Hit,
Invalid and Unresolvable branches it sends none. -/
theorem mmu_one_reply_notify_iff (st : MMUState) (m : Int) (req : AccessReq)
    (h : req.page_no ≠ MMU_END_OF_REF) :
    ((mmu_handle_request st m req).2.countP isReply = 1) ∧
    ((mmu_handle_request st m req).2.countP isNotify =
      if fault_handled_cond st req.p_ind req.page_no m req.m_req
      then 1 else 0) ∧
    (¬ is_legal_page req.page_no req.m_req = true →
      (mmu_handle_request st m req).2.countP isNotify = 0) ∧
    (0 < (pte_read st.sm1 req.p_ind m req.page_no).valid →
      (mmu_handle_request st m req).2.countP isNotify = 0) ∧
    ((ffl_alloc st.ffl).1 < 0 →
      choose_lru_victim_local st.sm1 req.p_ind m < 0 →
      (mmu_handle_request st m req).2.countP isNotify = 0) := by
  have hpfh := resolve_pfh_eq st req.p_ind req.page_no m req.m_req
  have hmsgs : (mmu_handle_request st m req).2 =
      OutMsg.reply req.p_ind (resolve_access st req.p_ind req.page_no m req.m_req).1 ::
        (if (resolve_access st req.p_ind req.page_no m req.m_req).2.1 ≠ 0
         then [OutMsg.notify req.p_ind 1] else []) := by
    unfold mmu_handle_request
    rw [if_neg h]
  by_cases hc : fault_handled_cond st req.p_ind req.page_no m req.m_req
  · rw [if_pos hc] at hpfh
    rw [hmsgs, hpfh]
    refine ⟨by simp [List.countP_cons, isReply, isNotify], ?_, ?_, ?_, ?_⟩
    · rw [if_pos hc]
      simp [List.countP_cons, isReply, isNotify]
    · intro hl
      exact absurd hc.1 hl
    · intro hv
      have := hc.2.1
      omega
    · intro ha hv
      rcases hc.2.2 with h3 | h4
      · omega
      · omega
  · rw [if_neg hc] at hpfh
    rw [hmsgs, hpfh]
    refine ⟨by simp [List.countP_cons, isReply, isNotify], ?_, ?_, ?_, ?_⟩
    · rw [if_neg hc]
      simp [List.countP_cons, isReply, isNotify]
    · intro _
      simp [List.countP_cons, isReply, isNotify]
    · intro _
      simp [List.countP_cons, isReply, isNotify]
    · intro _ _
      simp [List.countP_cons, isReply, isNotify]

/-- Witness: C9 applied to the k=1, m=2, f=1 initial state and the legal
request (pid 0, page 0, bound 2), a fault the pool can serve. -/
theorem mmu_one_reply_notify_iff_witness :
    ((0 : Int) ≠ MMU_END_OF_REF) ∧
    (((mmu_handle_request st112 2 ⟨0, 0, 2⟩).2.countP isReply = 1) ∧
    ((mmu_handle_request st112 2 ⟨0, 0, 2⟩).2.countP isNotify =
      if fault_handled_cond st112 0 0 2 2 then 1 else 0) ∧
    (¬ is_legal_page 0 2 = true →
      (mmu_handle_request st112 2 ⟨0, 0, 2⟩).2.countP isNotify = 0) ∧
    (0 < (pte_read st112.sm1 0 2 0).valid →
      (mmu_handle_request st112 2 ⟨0, 0, 2⟩).2.countP isNotify = 0) ∧
    ((ffl_alloc st112.ffl).1 < 0 →
      choose_lru_victim_local st112.sm1 0 2 < 0 →
      (mmu_handle_request st112 2 ⟨0, 0, 2⟩).2.countP isNotify = 0)) :=
  ⟨by decide, mmu_one_reply_notify_iff st112 2 ⟨0, 0, 2⟩ (by decide)⟩

end VMSim
